import Mathlib

/-!
Shallow embedding of the task-management core of `supchaser/LO_test_task`:
the in-memory repository (`internal/app/repository/repository.go`), the
orchestration layer (`internal/app/usecase/usecase.go`), the validation
helpers (`internal/utils/validate`) and the domain model
(`internal/app/models/models.go`).

Modelling decisions:
* Time (`time.Time`) is a natural number; every call of `time.Now()` in the
  Go code becomes an explicit `Nat` parameter of the embedded function, in
  the order the calls occur.
* The store's `map[int64]*models.Task` becomes an association list
  `List (Int × Task)`; insertion and deletion are normalised so that a key
  occurs at most once, exactly as in a Go map.  Iteration order is
  unspecified in Go, so no theorem below depends on the order of entries.
* Go errors are collapsed to their three domain kinds
  (`ErrTaskNotFound`, `ErrInvalidID`, `ErrValidation` from
  `internal/utils/errs/errors.go`); the wrapping message added by
  `fmt.Errorf("%w: ...")` is ignored, matching how `errors.Is` classifies.
* `*models.Task` aliasing matters: `Usecase.UpdateTask` fetches the stored
  pointer and mutates its fields in place, so every field assignment is
  embedded as an immediate write-back of the entry into the store.
* Functions that mutate the repository return the new store alongside the
  Go result, also on the error paths (where the Go code leaves the map as
  it was at that point).
-/

namespace LO

/-- The three domain error kinds of `internal/utils/errs/errors.go`. -/
inductive Err where
  | taskNotFound
  | invalidID
  | validation
deriving DecidableEq, Repr

/-- Type `models.TaskStatus` is a plain string in the Go code. -/
abbrev TaskStatus := String

def StatusPending : TaskStatus := "pending"

def StatusInProgress : TaskStatus := "in_progress"

def StatusCompleted : TaskStatus := "completed"

/-- Record `models.Task`: ID, title, description, status and the two timestamps. -/
structure Task where
  id : Int
  title : String
  description : String
  status : TaskStatus
  createdAt : Nat
  updatedAt : Nat
deriving DecidableEq, Repr

/-- The repository's `map[int64]*models.Task`, as an association list whose
keys occur at most once (the operations below preserve this shape). -/
abbrev Store := List (Int × Task)

/-- Go map read `task, exists := r.tasks[id]`. -/
def lookupEntry (s : Store) (id : Int) : Option Task :=
  match s with
  | [] => none
  | p :: rest => if p.1 = id then some p.2 else lookupEntry rest id

/-- Go map delete `delete(r.tasks, id)`. -/
def eraseEntry (s : Store) (id : Int) : Store :=
  s.filter (fun p => p.1 ≠ id)

/-- Go map write `r.tasks[id] = task`: overwrites any entry already keyed
by `id`. -/
def setEntry (s : Store) (id : Int) (t : Task) : Store :=
  (id, t) :: eraseEntry s id

/-! ## Validation (`internal/utils/validate`) -/

def MaxTaskTitleLength : Nat := 200

def MinTaskTitleLength : Nat := 3

def MaxTaskDescriptionLength : Nat := 5000

/-- Membership in the RE2 class `\s`, i.e. `[\t\n\f\r ]`, used by the title pattern. -/
def isRegexpSpace (c : Char) : Bool :=
  c == '\t' || c == '\n' || c == '\x0c' || c == '\r' || c == ' '

/-- Membership in the character class of the Go pattern
`[A-Za-z0-9А-Яа-я\s.,!?-]`.  The two Cyrillic ranges are
U+0410–U+042F (`А`–`Я`) and U+0430–U+044F (`а`–`я`). -/
def isTitleChar (c : Char) : Bool :=
  ('A' ≤ c && c ≤ 'Z') || ('a' ≤ c && c ≤ 'z') || ('0' ≤ c && c ≤ '9') ||
  ('А' ≤ c && c ≤ 'Я') || ('а' ≤ c && c ≤ 'я') ||
  isRegexpSpace c || c == '.' || c == ',' || c == '!' || c == '?' || c == '-'

/-- Predicate `taskTitleRegex.MatchString`, for the anchored pattern
`^[A-Za-z0-9А-Яа-я\s.,!?-]+$`: at least one rune, all runes in the class. -/
def taskTitleRegexMatch (s : String) : Bool :=
  !s.data.isEmpty && s.data.all isTitleChar

/-- Function `validate.CheckTaskTitle`.  Go `utf8.RuneCountInString` is the
number of `Char`s, i.e. `String.length`. -/
def CheckTaskTitle (title : String) : Except Err Unit :=
  if title = "" then .error .validation
  else
    let length := title.length
    if length < MinTaskTitleLength then .error .validation
    else if length > MaxTaskTitleLength then .error .validation
    else if !taskTitleRegexMatch title then .error .validation
    else .ok ()

/-- Function `validate.CheckTaskDescription`. -/
def CheckTaskDescription (description : String) : Except Err Unit :=
  if description.length > MaxTaskDescriptionLength then .error .validation
  else .ok ()

/-! ## Repository (`internal/app/repository/repository.go`) -/

/-- Function `Repository.CreateTask`: rejects a negative ID, stamps both timestamps
with `now`, inserts (overwriting silently) and returns the stored task. -/
def RepoCreateTask (s : Store) (task : Task) (now : Nat) :
    Store × Except Err Task :=
  if task.id < 0 then (s, .error .invalidID)
  else
    let t := { task with createdAt := now, updatedAt := now }
    (setEntry s t.id t, .ok t)

/-- Function `Repository.GetTaskByID`: pure read, `NotFound` when absent. -/
def RepoGetTaskByID (s : Store) (id : Int) : Except Err Task :=
  match lookupEntry s id with
  | none => .error .taskNotFound
  | some task => .ok task

/-- Function `Repository.GetAllTasks`: one full scan keeping the tasks whose status
matches the filter (or all of them when the filter is empty); never fails. -/
def RepoGetAllTasks (s : Store) (statusFilter : TaskStatus) :
    Except Err (List Task) :=
  .ok ((s.map Prod.snd).filter
        (fun task => statusFilter == "" || task.status == statusFilter))

/-- Function `Repository.UpdateTask`: answers `NotFound` when `task.ID` is absent; otherwise
overwrites title/description/status of the stored entry from the argument
and stamps `updated_at` with `now`, keeping the stored `created_at`. -/
def RepoUpdateTask (s : Store) (task : Task) (now : Nat) :
    Store × Except Err Task :=
  match lookupEntry s task.id with
  | none => (s, .error .taskNotFound)
  | some existingTask =>
    let t := { existingTask with
               title := task.title
               description := task.description
               status := task.status
               updatedAt := now }
    (setEntry s task.id t, .ok t)

/-- Function `Repository.DeleteTask`: answers `NotFound` when absent,
otherwise removes the entry. -/
def RepoDeleteTask (s : Store) (id : Int) : Store × Except Err Unit :=
  match lookupEntry s id with
  | none => (s, .error .taskNotFound)
  | some _ => (eraseEntry s id, .ok ())

/-! ## Orchestration layer (`internal/app/usecase/usecase.go`) -/

/-- Function `Usecase.CreateTask`.  The fresh ID is
`time.Now().UnixNano() / int64(time.Millisecond)`; the clock reading
`idNow` (nanoseconds, non-negative for any realistic clock) is an explicit
parameter, as are the two further `time.Now()` readings for the initial
timestamps and the repository's own reading `repoNow`. -/
def UcCreateTask (s : Store) (title description : String)
    (idNow nowC nowU repoNow : Nat) : Store × Except Err Task :=
  match CheckTaskTitle title with
  | .error e => (s, .error e)
  | .ok _ =>
    match CheckTaskDescription description with
    | .error e => (s, .error e)
    | .ok _ =>
      let task : Task :=
        { id := (Int.ofNat (idNow / 1000000))
          title := title
          description := description
          status := StatusPending
          createdAt := nowC
          updatedAt := nowU }
      RepoCreateTask s task repoNow

/-- Function `Usecase.GetTask`: pure delegation to `Repository.GetTaskByID`. -/
def UcGetTask (s : Store) (id : Int) : Except Err Task :=
  RepoGetTaskByID s id

/-- Function `Usecase.ListTasks`: pure delegation to `Repository.GetAllTasks`. -/
def UcListTasks (s : Store) (statusFilter : TaskStatus) :
    Except Err (List Task) :=
  RepoGetAllTasks s statusFilter

/-- The title block of `Usecase.UpdateTask`: when `newTitle` is non-empty it
is validated and, on success, assigned through the aliased pointer — which
writes the entry back into the store at key `id` immediately. -/
def UcUpdateTitleStep (s : Store) (id : Int) (existingTask : Task)
    (newTitle : String) : Except Err (Store × Task) :=
  if newTitle ≠ "" then
    match CheckTaskTitle newTitle with
    | .error e => .error e
    | .ok _ =>
      let t := { existingTask with title := newTitle }
      .ok (setEntry s id t, t)
  else .ok (s, existingTask)

/-- The description block of `Usecase.UpdateTask`, same write-through
shape as the title block. -/
def UcUpdateDescriptionStep (s : Store) (id : Int) (existingTask : Task)
    (newDescription : String) : Except Err (Store × Task) :=
  if newDescription ≠ "" then
    match CheckTaskDescription newDescription with
    | .error e => .error e
    | .ok _ =>
      let t := { existingTask with description := newDescription }
      .ok (setEntry s id t, t)
  else .ok (s, existingTask)

/-- Function `Usecase.UpdateTask`: fetches the stored task (the Go code receives the
aliased pointer), then runs the three conditional field assignments — each
mutating the stored entry in place, so a later validation failure leaves
the earlier assignments visible in the store — stamps `updated_at` with the
usecase's `time.Now()` reading `ucNow`, and hands the merged task to
`Repository.UpdateTask`, whose own reading is `repoNow`. -/
def UcUpdateTask (s : Store) (id : Int)
    (newTitle newDescription : String) (status : TaskStatus)
    (ucNow repoNow : Nat) : Store × Except Err Task :=
  match RepoGetTaskByID s id with
  | .error e => (s, .error e)
  | .ok existingTask =>
    match UcUpdateTitleStep s id existingTask newTitle with
    | .error e => (s, .error e)
    | .ok (s1, t1) =>
      match UcUpdateDescriptionStep s1 id t1 newDescription with
      | .error e => (s1, .error e)
      | .ok (s2, t2) =>
        let p3 :=
          if status ≠ "" then
            let t := { t2 with status := status }
            (setEntry s2 id t, t)
          else (s2, t2)
        let t4 := { p3.2 with updatedAt := ucNow }
        let s4 := setEntry p3.1 id t4
        RepoUpdateTask s4 t4 repoNow

/-- Function `Usecase.DeleteTask`: pure delegation to `Repository.DeleteTask`. -/
def UcDeleteTask (s : Store) (id : Int) : Store × Except Err Unit :=
  RepoDeleteTask s id

/-! ## Auxiliary definitions for the verification -/

/-- Timestamp well-formedness of a store at a clock value: every stored
task satisfies `created_at ≤ updated_at` and was last stamped no later
than the clock.  Each later `time.Now()` reading is at least the clock, so
the repository operations preserve this shape. -/
def StoreInv (s : Store) (clock : Nat) : Prop :=
  ∀ p ∈ s, (p : Int × Task).2.createdAt ≤ p.2.updatedAt ∧
    p.2.updatedAt ≤ clock

/-- Character predicate following the specification's wording of the title
alphabet — Latin letters, Cyrillic letters, digits, whitespace and the
punctuation set `. , ! ? -` — with "Cyrillic letters" read as the Unicode
Cyrillic block U+0400–U+04FF.  This spec-side definition exists only to be
compared against the code's class `isTitleChar`; the code is embedded by
`isTitleChar`, not by this. -/
def specClaimTitleChar (c : Char) : Bool :=
  ('A' ≤ c && c ≤ 'Z') || ('a' ≤ c && c ≤ 'z') ||
  (0x0400 ≤ c.toNat && c.toNat ≤ 0x04FF) ||
  c.isDigit || isRegexpSpace c ||
  c == '.' || c == ',' || c == '!' || c == '?' || c == '-'

/-- A sample stored task for the concrete witnesses below. -/
def sampleTask : Task :=
  { id := 1, title := "Old title", description := "Old description",
    status := StatusPending, createdAt := 10, updatedAt := 10 }

/-- A one-task store for the concrete witnesses below. -/
def sampleStore : Store := [(1, sampleTask)]

/-- A 5001-rune description, one rune over the validation limit. -/
def longDescription : String := String.mk (List.replicate 5001 'a')

/-- A task with a negative ID, for exercising the `InvalidID` path. -/
def negTask : Task := { sampleTask with id := -1 }

/-- An update payload for `sampleTask`, for the concrete witnesses below. -/
def sampleUpdate : Task :=
  { id := 1, title := "New title", description := "New description",
    status := StatusCompleted, createdAt := 3, updatedAt := 4 }

/-! ## Basic facts about the store operations -/

instance exceptDecEq {ε α : Type} [DecidableEq ε] [DecidableEq α] :
    DecidableEq (Except ε α) := fun x y =>
  match x, y with
  | .ok a, .ok b =>
      if h : a = b then .isTrue (by rw [h]) else .isFalse (by simp [h])
  | .error a, .error b =>
      if h : a = b then .isTrue (by rw [h]) else .isFalse (by simp [h])
  | .ok _, .error _ => .isFalse (by simp)
  | .error _, .ok _ => .isFalse (by simp)

theorem lookupEntry_mem {s : Store} {id : Int} {t : Task}
    (h : lookupEntry s id = some t) : (id, t) ∈ s := by
  induction s with
  | nil => simp [lookupEntry] at h
  | cons p rest ih =>
    rw [lookupEntry] at h
    by_cases hp : p.1 = id
    · rw [if_pos hp] at h
      injection h with h2
      subst hp
      subst h2
      simp
    · rw [if_neg hp] at h
      exact List.mem_cons_of_mem _ (ih h)

theorem eraseEntry_sublist (s : Store) (id : Int) :
    ∀ p ∈ eraseEntry s id, p ∈ s := by
  intro p hp
  exact List.mem_of_mem_filter hp

theorem lookupEntry_eraseEntry_self (s : Store) (id : Int) :
    lookupEntry (eraseEntry s id) id = none := by
  induction s with
  | nil => rfl
  | cons p rest ih =>
    by_cases hp : p.1 = id
    · simpa [eraseEntry, List.filter_cons, hp] using ih
    · simpa [eraseEntry, List.filter_cons, hp, lookupEntry] using ih

theorem lookupEntry_eraseEntry_ne {k id : Int} (s : Store) (h : k ≠ id) :
    lookupEntry (eraseEntry s id) k = lookupEntry s k := by
  induction s with
  | nil => rfl
  | cons p rest ih =>
    by_cases hp : p.1 = id
    · have hpk : ¬ p.1 = k := by rw [hp]; exact fun he => h he.symm
      rw [show eraseEntry (p :: rest) id = eraseEntry rest id from by
            simp [eraseEntry, List.filter_cons, hp]]
      rw [ih, lookupEntry, if_neg hpk]
    · rw [show eraseEntry (p :: rest) id = p :: eraseEntry rest id from by
            simp [eraseEntry, List.filter_cons, hp]]
      rw [lookupEntry, lookupEntry]
      by_cases hk : p.1 = k
      · rw [if_pos hk, if_pos hk]
      · rw [if_neg hk, if_neg hk, ih]

theorem lookupEntry_setEntry_self (s : Store) (id : Int) (t : Task) :
    lookupEntry (setEntry s id t) id = some t := by
  simp [setEntry, lookupEntry]

theorem lookupEntry_setEntry_ne {k id : Int} (s : Store) (t : Task)
    (h : k ≠ id) :
    lookupEntry (setEntry s id t) k = lookupEntry s k := by
  have hik : id ≠ k := fun he => h he.symm
  simp only [setEntry, lookupEntry, if_neg hik]
  exact lookupEntry_eraseEntry_ne s h

theorem eraseEntry_eraseEntry (s : Store) (id : Int) :
    eraseEntry (eraseEntry s id) id = eraseEntry s id := by
  induction s with
  | nil => rfl
  | cons p rest ih =>
    by_cases hp : p.1 = id
    · rw [show eraseEntry (p :: rest) id = eraseEntry rest id from by
            simp [eraseEntry, List.filter_cons, hp]]
      exact ih
    · simp only [eraseEntry, List.filter_cons] at ih ⊢
      simp [hp, ih]

theorem eraseEntry_setEntry (s : Store) (id : Int) (t : Task) :
    eraseEntry (setEntry s id t) id = eraseEntry s id := by
  have h1 : eraseEntry ((id, t) :: eraseEntry s id) id =
      eraseEntry (eraseEntry s id) id := by
    simp [eraseEntry, List.filter_cons]
  rw [setEntry, h1, eraseEntry_eraseEntry]

theorem setEntry_setEntry (s : Store) (id : Int) (a b : Task) :
    setEntry (setEntry s id a) id b = setEntry s id b := by
  rw [show setEntry (setEntry s id a) id b =
        (id, b) :: eraseEntry (setEntry s id a) id from rfl,
      eraseEntry_setEntry, setEntry]

/-! ## Facts about the validation functions -/

theorem checkTaskTitle_cases (t : String) :
    CheckTaskTitle t = .ok () ∨ CheckTaskTitle t = .error .validation := by
  simp only [CheckTaskTitle]
  repeat' split
  all_goals simp

theorem checkTaskDescription_cases (d : String) :
    CheckTaskDescription d = .ok () ∨
      CheckTaskDescription d = .error .validation := by
  simp only [CheckTaskDescription]
  split
  all_goals simp

theorem checkTaskTitle_error_kind {t : String} {e : Err}
    (h : CheckTaskTitle t = .error e) : e = .validation := by
  rcases checkTaskTitle_cases t with h2 | h2 <;> rw [h2] at h
  · exact absurd h (by simp)
  · injection h with h3
    exact h3.symm

theorem checkTaskDescription_error_kind {d : String} {e : Err}
    (h : CheckTaskDescription d = .error e) : e = .validation := by
  rcases checkTaskDescription_cases d with h2 | h2 <;> rw [h2] at h
  · exact absurd h (by simp)
  · injection h with h3
    exact h3.symm

theorem checkTaskTitle_ok_ne_empty {t : String}
    (h : CheckTaskTitle t = .ok ()) : t ≠ "" := by
  intro he
  subst he
  simp [CheckTaskTitle] at h

theorem checkTaskDescription_error_ne_empty {d : String} {e : Err}
    (h : CheckTaskDescription d = .error e) : d ≠ "" := by
  intro he
  subst he
  simp [CheckTaskDescription] at h

theorem data_ne_nil_of_ne_empty {t : String} (h : t ≠ "") :
    t.data ≠ [] := by
  intro hd
  exact h (String.ext (by rw [hd]))

theorem checkTaskTitle_error_iff (t : String) :
    CheckTaskTitle t = .error .validation ↔
      t = "" ∨ t.length < MinTaskTitleLength ∨
        MaxTaskTitleLength < t.length ∨
        t.data.all isTitleChar = false := by
  by_cases h1 : t = ""
  · simp [CheckTaskTitle, h1]
  · have hd := data_ne_nil_of_ne_empty h1
    by_cases h2 : t.length < MinTaskTitleLength
    · simp [CheckTaskTitle, h1, h2]
    · by_cases h3 : MaxTaskTitleLength < t.length
      · simp [CheckTaskTitle, h1, h2, h3]
      · by_cases h4 : t.data.all isTitleChar
        · simp [CheckTaskTitle, taskTitleRegexMatch, h1, h2, h3, h4, hd]
        · simp [CheckTaskTitle, taskTitleRegexMatch, h1, h2, h3, hd,
                Bool.eq_false_iff.mpr h4]

theorem checkTaskDescription_error_iff (d : String) :
    CheckTaskDescription d = .error .validation ↔
      MaxTaskDescriptionLength < d.length := by
  by_cases h : MaxTaskDescriptionLength < d.length
  · simp [CheckTaskDescription, h]
  · simp [CheckTaskDescription, h]

theorem longDescription_length : longDescription.length = 5001 := by
  rw [longDescription]
  show (List.replicate 5001 'a').length = 5001
  rw [List.length_replicate]

theorem longDescription_invalid :
    CheckTaskDescription longDescription = .error .validation := by
  rw [checkTaskDescription_error_iff, longDescription_length]
  norm_num [MaxTaskDescriptionLength]

/-! ## Computation lemmas for the orchestration layer -/

theorem ucCreateTask_ok_eq (s : Store) (title description : String)
    (idNow nowC nowU repoNow : Nat)
    (ht : CheckTaskTitle title = .ok ())
    (hd : CheckTaskDescription description = .ok ()) :
    UcCreateTask s title description idNow nowC nowU repoNow =
      (setEntry s (Int.ofNat (idNow / 1000000))
        { id := Int.ofNat (idNow / 1000000), title := title,
          description := description, status := StatusPending,
          createdAt := repoNow, updatedAt := repoNow },
       .ok
        { id := Int.ofNat (idNow / 1000000), title := title,
          description := description, status := StatusPending,
          createdAt := repoNow, updatedAt := repoNow }) := by
  simp [UcCreateTask, ht, hd, RepoCreateTask]
  omega

theorem ucCreateTask_title_error_eq (s : Store)
    (title description : String) (idNow nowC nowU repoNow : Nat) {e : Err}
    (ht : CheckTaskTitle title = .error e) :
    UcCreateTask s title description idNow nowC nowU repoNow =
      (s, .error e) := by
  simp [UcCreateTask, ht]

theorem ucCreateTask_desc_error_eq (s : Store)
    (title description : String) (idNow nowC nowU repoNow : Nat) {e : Err}
    (ht : CheckTaskTitle title = .ok ())
    (hd : CheckTaskDescription description = .error e) :
    UcCreateTask s title description idNow nowC nowU repoNow =
      (s, .error e) := by
  simp [UcCreateTask, ht, hd]

theorem ucUpdateTask_ok (s : Store) (id : Int) (t : Task)
    (nt nd st : String) (ucNow repoNow : Nat)
    (hlook : lookupEntry s id = some t) (hid : t.id = id)
    (ht : nt = "" ∨ CheckTaskTitle nt = .ok ())
    (hd : nd = "" ∨ CheckTaskDescription nd = .ok ()) :
    UcUpdateTask s id nt nd st ucNow repoNow =
      (setEntry s id
        { t with
          title := if nt = "" then t.title else nt
          description := if nd = "" then t.description else nd
          status := if st = "" then t.status else st
          updatedAt := repoNow },
       .ok
        { t with
          title := if nt = "" then t.title else nt
          description := if nd = "" then t.description else nd
          status := if st = "" then t.status else st
          updatedAt := repoNow }) := by
  subst hid
  by_cases hnt : nt = "" <;> by_cases hnd : nd = "" <;>
    by_cases hst : st = "" <;>
  all_goals first
  | (have ht2 : CheckTaskTitle nt = .ok () := ht.resolve_left (by assumption)
     have hd2 : CheckTaskDescription nd = .ok () :=
       hd.resolve_left (by assumption)
     simp [UcUpdateTask, UcUpdateTitleStep, UcUpdateDescriptionStep,
           RepoGetTaskByID, RepoUpdateTask, hlook, hnt, hnd, hst, ht2, hd2,
           lookupEntry_setEntry_self, setEntry_setEntry])
  | (have ht2 : CheckTaskTitle nt = .ok () := ht.resolve_left (by assumption)
     simp [UcUpdateTask, UcUpdateTitleStep, UcUpdateDescriptionStep,
           RepoGetTaskByID, RepoUpdateTask, hlook, hnt, hnd, hst, ht2,
           lookupEntry_setEntry_self, setEntry_setEntry])
  | (have hd2 : CheckTaskDescription nd = .ok () :=
       hd.resolve_left (by assumption)
     simp [UcUpdateTask, UcUpdateTitleStep, UcUpdateDescriptionStep,
           RepoGetTaskByID, RepoUpdateTask, hlook, hnt, hnd, hst, hd2,
           lookupEntry_setEntry_self, setEntry_setEntry])
  | simp [UcUpdateTask, UcUpdateTitleStep, UcUpdateDescriptionStep,
          RepoGetTaskByID, RepoUpdateTask, hlook, hnt, hnd, hst,
          lookupEntry_setEntry_self, setEntry_setEntry]

theorem ucUpdateTask_title_error_eq (s : Store) (id : Int) (t : Task)
    (nt nd st : String) (ucNow repoNow : Nat)
    (hlook : lookupEntry s id = some t)
    (hnt : nt ≠ "") {e : Err} (herr : CheckTaskTitle nt = .error e) :
    UcUpdateTask s id nt nd st ucNow repoNow = (s, .error e) := by
  simp [UcUpdateTask, UcUpdateTitleStep, RepoGetTaskByID, hlook, hnt, herr]

theorem ucUpdateTask_desc_error_eq (s : Store) (id : Int) (t : Task)
    (nt nd st : String) (ucNow repoNow : Nat)
    (hlook : lookupEntry s id = some t)
    (ht : nt = "" ∨ CheckTaskTitle nt = .ok ())
    {e : Err} (herr : CheckTaskDescription nd = .error e) :
    UcUpdateTask s id nt nd st ucNow repoNow =
      (if nt = "" then s else setEntry s id { t with title := nt },
       .error e) := by
  have hnd : nd ≠ "" := checkTaskDescription_error_ne_empty herr
  rcases ht with hnt | htok
  · simp [UcUpdateTask, UcUpdateTitleStep, UcUpdateDescriptionStep,
          RepoGetTaskByID, hlook, hnt, hnd, herr]
  · have hnt : nt ≠ "" := checkTaskTitle_ok_ne_empty htok
    simp [UcUpdateTask, UcUpdateTitleStep, UcUpdateDescriptionStep,
          RepoGetTaskByID, hlook, hnt, hnd, htok, herr]

theorem ucUpdateTask_notFound_eq (s : Store) (id : Int)
    (nt nd st : String) (ucNow repoNow : Nat)
    (hlook : lookupEntry s id = none) :
    UcUpdateTask s id nt nd st ucNow repoNow =
      (s, .error .taskNotFound) := by
  simp [UcUpdateTask, RepoGetTaskByID, hlook]

/-! ## Error-kind analysis -/

theorem repoGetTaskByID_error_kind {s : Store} {id : Int} {e : Err}
    (h : RepoGetTaskByID s id = .error e) : e = .taskNotFound := by
  rw [RepoGetTaskByID] at h
  rcases hlk : lookupEntry s id with _ | t <;> rw [hlk] at h <;> simp_all

theorem repoUpdateTask_error_kind {s : Store} {task : Task} {now : Nat}
    {e : Err} (h : (RepoUpdateTask s task now).2 = .error e) :
    e = .taskNotFound := by
  rw [RepoUpdateTask] at h
  rcases hlk : lookupEntry s task.id with _ | t <;> rw [hlk] at h <;>
    simp_all

theorem ucUpdateTitleStep_error_kind {s : Store} {id : Int} {t : Task}
    {nt : String} {e : Err}
    (h : UcUpdateTitleStep s id t nt = .error e) : e = .validation := by
  rw [UcUpdateTitleStep] at h
  by_cases hnt : nt ≠ ""
  · rw [if_pos hnt] at h
    rcases hc : CheckTaskTitle nt with e' | u <;> rw [hc] at h
    · simp only [Except.error.injEq] at h
      exact h ▸ checkTaskTitle_error_kind hc
    · simp at h
  · rw [if_neg hnt] at h
    simp at h

theorem ucUpdateDescriptionStep_error_kind {s : Store} {id : Int}
    {t : Task} {nd : String} {e : Err}
    (h : UcUpdateDescriptionStep s id t nd = .error e) : e = .validation := by
  rw [UcUpdateDescriptionStep] at h
  by_cases hnd : nd ≠ ""
  · rw [if_pos hnd] at h
    rcases hc : CheckTaskDescription nd with e' | u <;> rw [hc] at h
    · simp only [Except.error.injEq] at h
      exact h ▸ checkTaskDescription_error_kind hc
    · simp at h
  · rw [if_neg hnd] at h
    simp at h

theorem ucUpdateTask_error_kinds {s : Store} {id : Int}
    {nt nd st : String} {ucNow repoNow : Nat} {e : Err}
    (h : (UcUpdateTask s id nt nd st ucNow repoNow).2 = .error e) :
    e = .taskNotFound ∨ e = .validation := by
  rw [UcUpdateTask] at h
  rcases hg : RepoGetTaskByID s id with eg | t0 <;> rw [hg] at h <;>
    dsimp only at h
  · simp only [Except.error.injEq] at h
    exact .inl (h ▸ repoGetTaskByID_error_kind hg)
  · rcases hts : UcUpdateTitleStep s id t0 nt with e1 | p1 <;>
      rw [hts] at h <;> dsimp only at h
    · simp only [Except.error.injEq] at h
      exact .inr (h ▸ ucUpdateTitleStep_error_kind hts)
    · obtain ⟨s1, t1⟩ := p1
      dsimp only at h
      rcases hds : UcUpdateDescriptionStep s1 id t1 nd with e2 | p2 <;>
        rw [hds] at h <;> dsimp only at h
      · simp only [Except.error.injEq] at h
        exact .inr (h ▸ ucUpdateDescriptionStep_error_kind hds)
      · obtain ⟨s2, t2⟩ := p2
        dsimp only at h
        exact .inl (repoUpdateTask_error_kind h)

/-! ## Facts about the timestamp invariant -/

theorem storeInv_mono {s : Store} {clock now : Nat}
    (h : StoreInv s clock) (hc : clock ≤ now) : StoreInv s now := by
  intro p hp
  exact ⟨(h p hp).1, le_trans (h p hp).2 hc⟩

theorem storeInv_setEntry {s : Store} {clock : Nat} {id : Int} {t : Task}
    (h : StoreInv s clock)
    (ht : t.createdAt ≤ t.updatedAt ∧ t.updatedAt ≤ clock) :
    StoreInv (setEntry s id t) clock := by
  intro p hp
  rcases List.mem_cons.mp hp with hp | hp
  · subst hp
    exact ht
  · exact h p (eraseEntry_sublist s id p hp)

theorem storeInv_erase {s : Store} {clock : Nat} (id : Int)
    (h : StoreInv s clock) : StoreInv (eraseEntry s id) clock := by
  intro p hp
  exact h p (eraseEntry_sublist s id p hp)

/-! ## C1 -/

/-- C1: for a task stored under `id`, a fully valid `updateTask` merges as
the claim states — an empty new title/description keeps the stored field
and a non-empty validated one replaces it, a non-empty status replaces the
status with no check against the known values — and a subsequent `getTask`
on `id` returns exactly the merged task.  The merged task's `updated_at`
carries the repository's `time.Now()` reading. -/
theorem updateTask_merge_spec (s : Store) (id : Int) (t : Task)
    (nt nd st : String) (ucNow repoNow : Nat)
    (hlook : lookupEntry s id = some t) (hid : t.id = id)
    (ht : nt = "" ∨ CheckTaskTitle nt = .ok ())
    (hd : nd = "" ∨ CheckTaskDescription nd = .ok ()) :
    (UcUpdateTask s id nt nd st ucNow repoNow).2 =
      .ok { t with title := if nt = "" then t.title else nt,
                   description := if nd = "" then t.description else nd,
                   status := if st = "" then t.status else st,
                   updatedAt := repoNow } ∧
    UcGetTask (UcUpdateTask s id nt nd st ucNow repoNow).1 id =
      .ok { t with title := if nt = "" then t.title else nt,
                   description := if nd = "" then t.description else nd,
                   status := if st = "" then t.status else st,
                   updatedAt := repoNow } := by
  rw [ucUpdateTask_ok s id t nt nd st ucNow repoNow hlook hid ht hd]
  exact ⟨rfl,
    by simp [UcGetTask, RepoGetTaskByID, lookupEntry_setEntry_self]⟩

/-- Witness for C1 at a concrete store: a new title and status with an
empty new description. -/
theorem updateTask_merge_spec_witness :
    (UcUpdateTask sampleStore 1 "New title" "" StatusCompleted 20 21).2 =
      .ok { sampleTask with title := "New title",
                            status := StatusCompleted, updatedAt := 21 } ∧
    UcGetTask
        (UcUpdateTask sampleStore 1 "New title" "" StatusCompleted
          20 21).1 1 =
      .ok { sampleTask with title := "New title",
                            status := StatusCompleted, updatedAt := 21 } :=
  updateTask_merge_spec sampleStore 1 sampleTask "New title" ""
    StatusCompleted 20 21 (by decide) (by decide) (.inr (by decide))
    (.inl rfl)

/-! ## C2 -/

/-- C2 counterexample: the claim says a `Validation` failure of
`updateTask` leaves the stored task entirely unchanged, but when a valid
non-empty new title is followed by an invalid new description, the title
has already been assigned through the aliased pointer: the call fails with
`Validation`, yet the task stored under ID 1 now carries the new title —
a different task than before the call. -/
theorem updateTask_validation_aliasing_cex :
    (UcUpdateTask sampleStore 1 "New title" longDescription "" 20 21).2 =
      .error .validation ∧
    lookupEntry
        (UcUpdateTask sampleStore 1 "New title" longDescription ""
          20 21).1 1 =
      some { sampleTask with title := "New title" } ∧
    ({ sampleTask with title := "New title" } : Task) ≠ sampleTask := by
  have h := ucUpdateTask_desc_error_eq sampleStore 1 sampleTask
    "New title" longDescription "" 20 21 (by decide) (.inr (by decide))
    longDescription_invalid
  rw [h]
  refine ⟨rfl, ?_, by decide⟩
  rw [if_neg (by decide : ¬ ("New title" : String) = "")]
  exact lookupEntry_setEntry_self _ _ _

/-- C2 amended: a `Validation` error raised by the new title leaves the
store exactly as it was; a `Validation` error raised by the new
description leaves the stored description, status and both timestamps
unchanged, but the stored title has already been overwritten when the new
title was non-empty (and validated). -/
theorem updateTask_validation_frame_amended (s : Store) (id : Int)
    (t : Task) (nt nd st : String) (ucNow repoNow : Nat)
    (hlook : lookupEntry s id = some t) :
    (nt ≠ "" → CheckTaskTitle nt = .error .validation →
       UcUpdateTask s id nt nd st ucNow repoNow =
         (s, .error .validation)) ∧
    ((nt = "" ∨ CheckTaskTitle nt = .ok ()) →
     CheckTaskDescription nd = .error .validation →
       (UcUpdateTask s id nt nd st ucNow repoNow).2 = .error .validation ∧
       lookupEntry (UcUpdateTask s id nt nd st ucNow repoNow).1 id =
         some (if nt = "" then t else { t with title := nt })) := by
  constructor
  · intro hnt herr
    exact ucUpdateTask_title_error_eq s id t nt nd st ucNow repoNow
      hlook hnt herr
  · intro ht hderr
    rw [ucUpdateTask_desc_error_eq s id t nt nd st ucNow repoNow
        hlook ht hderr]
    refine ⟨rfl, ?_⟩
    by_cases hnt : nt = "" <;>
      simp [hnt, hlook, lookupEntry_setEntry_self]

/-- Witness for the amended C2: an invalid new title (too short) fails
with `Validation` and leaves the concrete store untouched. -/
theorem updateTask_validation_frame_amended_witness :
    UcUpdateTask sampleStore 1 "@@" "" "" 20 21 =
      (sampleStore, .error .validation) :=
  (updateTask_validation_frame_amended sampleStore 1 sampleTask
      "@@" "" "" 20 21 (by decide)).1 (by decide) (by decide)

/-! ## C3 -/

/-- C3: creating a task from a valid title and description succeeds, and
the returned task has status `pending` and `created_at` equal to
`updated_at` (the repository stamps both fields with the same `time.Now()`
reading). -/
theorem createTask_pending_equal_timestamps (s : Store)
    (title description : String) (idNow nowC nowU repoNow : Nat)
    (ht : CheckTaskTitle title = .ok ())
    (hd : CheckTaskDescription description = .ok ()) :
    (UcCreateTask s title description idNow nowC nowU repoNow).2 =
      .ok { id := Int.ofNat (idNow / 1000000), title := title,
            description := description, status := StatusPending,
            createdAt := repoNow, updatedAt := repoNow } := by
  rw [ucCreateTask_ok_eq s title description idNow nowC nowU repoNow
      ht hd]

/-- Witness for C3 at a concrete valid title and empty description. -/
theorem createTask_pending_equal_timestamps_witness :
    (UcCreateTask [] "abc" "" 0 0 0 7).2 =
      .ok { id := 0, title := "abc", description := "",
            status := StatusPending, createdAt := 7, updatedAt := 7 } :=
  createTask_pending_equal_timestamps [] "abc" "" 0 0 0 7
    (by decide) (by decide)

/-! ## C4 -/

/-- C4 counterexample: the title `"ёёё"` consists of three Cyrillic
letters — so by the claim's wording it should be accepted — yet the code
rejects it with `Validation`, because the pattern's ranges `А-Яа-я`
(U+0410–U+044F) do not contain `ё` (U+0451). -/
theorem createTask_validation_charset_cex :
    ("ёёё" : String) ≠ "" ∧ ("ёёё" : String).length = 3 ∧
    ("ёёё" : String).data.all specClaimTitleChar = true ∧
    (UcCreateTask [] "ёёё" "" 0 0 0 0).2 = .error .validation := by
  refine ⟨by decide, by decide, by decide, ?_⟩
  rw [ucCreateTask_title_error_eq [] "ёёё" "" 0 0 0 0
      (by decide : CheckTaskTitle "ёёё" = Except.error Err.validation)]

/-- C4 amended: `createTask` fails with `Validation` exactly when the
title is empty, shorter than 3 runes, longer than 200 runes, or contains a
rune outside the class `A-Z a-z 0-9 А-Я а-я` (U+0410–U+044F, which
excludes `Ё`/`ё`), RE2 whitespace `[\t\n\f\r ]` and `. , ! ? -` — or the
description exceeds 5000 runes. -/
theorem createTask_validation_iff_amended (s : Store)
    (title description : String) (idNow nowC nowU repoNow : Nat) :
    (UcCreateTask s title description idNow nowC nowU repoNow).2 =
        .error .validation ↔
      (title = "" ∨ title.length < MinTaskTitleLength ∨
       MaxTaskTitleLength < title.length ∨
       title.data.all isTitleChar = false ∨
       MaxTaskDescriptionLength < description.length) := by
  rcases checkTaskTitle_cases title with hok | herr
  · have hTfalse : ¬ (title = "" ∨ title.length < MinTaskTitleLength ∨
        MaxTaskTitleLength < title.length ∨
        title.data.all isTitleChar = false) := by
      intro hc
      rw [(checkTaskTitle_error_iff title).mpr hc] at hok
      exact absurd hok (by simp)
    rcases checkTaskDescription_cases description with dok | derr
    · rw [ucCreateTask_ok_eq s title description idNow nowC nowU repoNow
          hok dok]
      have hDfalse : ¬ MaxTaskDescriptionLength < description.length := by
        intro hc
        rw [(checkTaskDescription_error_iff description).mpr hc] at dok
        exact absurd dok (by simp)
      simp only [hTfalse, hDfalse]
      constructor
      · intro h
        exact absurd h (by simp)
      · intro h
        tauto
    · rw [ucCreateTask_desc_error_eq s title description idNow nowC nowU
          repoNow hok derr]
      have hD := (checkTaskDescription_error_iff description).mp derr
      constructor
      · intro _
        tauto
      · intro _
        trivial
  · rw [ucCreateTask_title_error_eq s title description idNow nowC nowU
        repoNow herr]
    have hT := (checkTaskTitle_error_iff title).mp herr
    constructor
    · intro _
      tauto
    · intro _
      trivial

/-! ## C5 -/

/-- C5: `Store.create` fails with `InvalidID` exactly on a negative ID
and then leaves the mapping unchanged; on a non-negative ID it stamps both
timestamps with `now`, inserts under `task.ID` overwriting silently
(success does not depend on whether the ID was already present), and the
stored task is retrievable. -/
theorem storeCreate_invalidID_spec (s : Store) (task : Task) (now : Nat) :
    (task.id < 0 → RepoCreateTask s task now = (s, .error .invalidID)) ∧
    (0 ≤ task.id →
       RepoCreateTask s task now =
         (setEntry s task.id
            { task with createdAt := now, updatedAt := now },
          .ok { task with createdAt := now, updatedAt := now }) ∧
       lookupEntry (RepoCreateTask s task now).1 task.id =
         some { task with createdAt := now, updatedAt := now }) := by
  constructor
  · intro h
    simp [RepoCreateTask, h]
  · intro h
    have h2 : ¬ task.id < 0 := not_lt.mpr h
    constructor
    · simp [RepoCreateTask, h2]
    · simp [RepoCreateTask, h2, lookupEntry_setEntry_self]

/-- Witness for C5: a negative-ID task is rejected with the store
untouched, a non-negative one is stored with both timestamps stamped. -/
theorem storeCreate_invalidID_spec_witness :
    RepoCreateTask [] negTask 7 = ([], .error .invalidID) ∧
    (RepoCreateTask [] sampleTask 7).2 =
      .ok { sampleTask with createdAt := 7, updatedAt := 7 } :=
  ⟨(storeCreate_invalidID_spec [] negTask 7).1 (by decide),
   by rw [((storeCreate_invalidID_spec [] sampleTask 7).2 (by decide)).1]⟩

/-! ## C6 -/

/-- C6: `listTasks` never fails, and its result contains a task exactly
when the task is stored and either the filter is empty or the task's
status equals the filter. -/
theorem listTasks_filter_spec (s : Store) (f : TaskStatus) :
    ∃ l : List Task, UcListTasks s f = .ok l ∧
      ∀ task : Task,
        task ∈ l ↔ task ∈ s.map Prod.snd ∧ (f = "" ∨ task.status = f) := by
  refine ⟨_, rfl, ?_⟩
  intro task
  simp [UcListTasks, RepoGetAllTasks, List.mem_filter]

/-! ## C7 -/

/-- C7: deleting a stored ID succeeds, a subsequent `getTask` on that ID
fails with `NotFound`, and every other entry is unchanged; deleting an
absent ID fails with `NotFound` and leaves the store exactly as it was. -/
theorem deleteTask_spec (s : Store) (id : Int) :
    (∀ t : Task, lookupEntry s id = some t →
       (UcDeleteTask s id).2 = .ok () ∧
       UcGetTask (UcDeleteTask s id).1 id = .error .taskNotFound ∧
       (∀ k : Int, k ≠ id →
          lookupEntry (UcDeleteTask s id).1 k = lookupEntry s k)) ∧
    (lookupEntry s id = none →
       UcDeleteTask s id = (s, .error .taskNotFound)) := by
  constructor
  · intro t h
    rw [UcDeleteTask, RepoDeleteTask, h]
    refine ⟨rfl, ?_, ?_⟩
    · rw [UcGetTask, RepoGetTaskByID]
      dsimp only
      rw [lookupEntry_eraseEntry_self]
    · intro k hk
      dsimp only
      exact lookupEntry_eraseEntry_ne s hk
  · intro h
    rw [UcDeleteTask, RepoDeleteTask, h]

/-- Witness for C7 on a one-task store: deleting ID 1 succeeds and makes
`getTask 1` fail with `NotFound`; deleting the absent ID 2 fails with
`NotFound` and returns the store unchanged. -/
theorem deleteTask_spec_witness :
    (UcDeleteTask sampleStore 1).2 = .ok () ∧
    UcGetTask (UcDeleteTask sampleStore 1).1 1 = .error .taskNotFound ∧
    UcDeleteTask sampleStore 2 = (sampleStore, .error .taskNotFound) :=
  ⟨((deleteTask_spec sampleStore 1).1 sampleTask (by decide)).1,
   ((deleteTask_spec sampleStore 1).1 sampleTask (by decide)).2.1,
   (deleteTask_spec sampleStore 2).2 (by decide)⟩

/-! ## C8 -/

/-- C8: given a store whose tasks all satisfy
`created_at ≤ updated_at ≤ clock` and any later `time.Now()` reading
`now`, every repository operation preserves the invariant, and
`Repository.UpdateTask` on a stored entry keeps its `created_at` while
stamping `updated_at := now`. -/
theorem timestamps_invariant_spec (s : Store) (clock now : Nat)
    (task : Task) (id : Int)
    (hinv : StoreInv s clock) (hc : clock ≤ now) :
    StoreInv s now ∧
    StoreInv (RepoCreateTask s task now).1 now ∧
    StoreInv (RepoUpdateTask s task now).1 now ∧
    StoreInv (RepoDeleteTask s id).1 now ∧
    (∀ t0 : Task, lookupEntry s task.id = some t0 →
       (RepoUpdateTask s task now).2 =
         .ok { t0 with title := task.title,
                       description := task.description,
                       status := task.status, updatedAt := now } ∧
       lookupEntry (RepoUpdateTask s task now).1 task.id =
         some { t0 with title := task.title,
                        description := task.description,
                        status := task.status, updatedAt := now }) := by
  have hmono := storeInv_mono hinv hc
  refine ⟨hmono, ?_, ?_, ?_, ?_⟩
  · rw [RepoCreateTask]
    by_cases hneg : task.id < 0
    · rw [if_pos hneg]
      exact hmono
    · rw [if_neg hneg]
      exact storeInv_setEntry hmono ⟨le_refl now, le_refl now⟩
  · rw [RepoUpdateTask]
    rcases hlk : lookupEntry s task.id with _ | t0 <;> dsimp only
    · exact hmono
    · have hmem := hinv _ (lookupEntry_mem hlk)
      exact storeInv_setEntry hmono
        ⟨le_trans (le_trans hmem.1 hmem.2) hc, le_refl now⟩
  · rw [RepoDeleteTask]
    rcases hlk : lookupEntry s id with _ | t0 <;> dsimp only
    · exact hmono
    · exact storeInv_erase id hmono
  · intro t0 hlk
    rw [RepoUpdateTask, hlk]
    exact ⟨rfl, lookupEntry_setEntry_self _ _ _⟩

/-- Witness for C8: updating the sample store at clock 10 with reading 11
keeps `created_at = 10` and stamps `updated_at = 11`. -/
theorem timestamps_invariant_spec_witness :
    (RepoUpdateTask sampleStore sampleUpdate 11).2 =
      .ok { sampleTask with
            title := "New title", description := "New description",
            status := StatusCompleted, updatedAt := 11 } ∧
    lookupEntry (RepoUpdateTask sampleStore sampleUpdate 11).1 1 =
      some { sampleTask with
             title := "New title", description := "New description",
             status := StatusCompleted, updatedAt := 11 } :=
  (timestamps_invariant_spec sampleStore 10 11 sampleUpdate 1
      (by unfold StoreInv; decide) (by decide)).2.2.2.2 sampleTask
    (by decide)

/-! ## C9 -/

/-- C9: `updateTask` with all three new fields empty succeeds with no
validation, keeps the stored ID, title, description, status and
`created_at`, and only refreshes `updated_at` to the repository's
`time.Now()` reading. -/
theorem updateTask_noop_frame_spec (s : Store) (id : Int) (t : Task)
    (ucNow repoNow : Nat)
    (hlook : lookupEntry s id = some t) (hid : t.id = id) :
    (UcUpdateTask s id "" "" "" ucNow repoNow).2 =
      .ok { t with updatedAt := repoNow } ∧
    lookupEntry (UcUpdateTask s id "" "" "" ucNow repoNow).1 id =
      some { t with updatedAt := repoNow } := by
  rw [ucUpdateTask_ok s id t "" "" "" ucNow repoNow hlook hid
      (Or.inl rfl) (Or.inl rfl)]
  exact ⟨rfl, lookupEntry_setEntry_self _ _ _⟩

/-- Witness for C9 on the one-task sample store. -/
theorem updateTask_noop_frame_spec_witness :
    (UcUpdateTask sampleStore 1 "" "" "" 20 21).2 =
      .ok { sampleTask with updatedAt := 21 } ∧
    lookupEntry (UcUpdateTask sampleStore 1 "" "" "" 20 21).1 1 =
      some { sampleTask with updatedAt := 21 } :=
  updateTask_noop_frame_spec sampleStore 1 sampleTask 20 21
    (by decide) (by decide)

/-! ## C10 -/

/-- C10: `getTask`, `updateTask` and `deleteTask` can never return
`InvalidID`, and on an ID that is not stored — negative ones included —
each of them fails with `NotFound`, leaving the store unchanged. -/
theorem notFound_never_invalidID_spec (s : Store) (id : Int)
    (nt nd st : String) (ucNow repoNow : Nat) :
    UcGetTask s id ≠ .error .invalidID ∧
    (UcUpdateTask s id nt nd st ucNow repoNow).2 ≠ .error .invalidID ∧
    (UcDeleteTask s id).2 ≠ .error .invalidID ∧
    (lookupEntry s id = none →
       UcGetTask s id = .error .taskNotFound ∧
       UcUpdateTask s id nt nd st ucNow repoNow =
         (s, .error .taskNotFound) ∧
       UcDeleteTask s id = (s, .error .taskNotFound)) := by
  refine ⟨?_, ?_, ?_, ?_⟩
  · intro h
    have := repoGetTaskByID_error_kind h
    simp at this
  · intro h
    rcases ucUpdateTask_error_kinds h with h2 | h2 <;> simp at h2
  · intro h
    rw [UcDeleteTask, RepoDeleteTask] at h
    rcases hlk : lookupEntry s id with _ | t <;> rw [hlk] at h <;>
      simp_all
  · intro h
    refine ⟨?_, ?_, ?_⟩
    · rw [UcGetTask, RepoGetTaskByID, h]
    · exact ucUpdateTask_notFound_eq s id nt nd st ucNow repoNow h
    · rw [UcDeleteTask, RepoDeleteTask, h]

/-- Witness for C10 at the absent negative ID `-5` on the empty store:
all three operations answer `NotFound`, not `InvalidID`. -/
theorem notFound_never_invalidID_spec_witness :
    UcGetTask [] (-5) = .error .taskNotFound ∧
    UcUpdateTask [] (-5) "New title" "" "" 20 21 =
      ([], .error .taskNotFound) ∧
    UcDeleteTask [] (-5) = ([], .error .taskNotFound) :=
  (notFound_never_invalidID_spec [] (-5) "New title" "" "" 20 21).2.2.2
    rfl

end LO
